import Mathlib

/-!
# Verification development for the dYdX v4 protocol sample

Shallow embedding of

* `protocol/app/process/process_proposal.go` (`ProcessProposalHandler`),
* `protocol/x/clob/types/mem_clob_keeper.go` (`MemClobKeeper.ReplayPlaceOrder`),
* `protocol/indexer/protocol/v1` (`OrderToIndexerOrder`, as exercised by `v1_mappers_test.go`),
* `protocol/x/epochs` (`BeginBlocker`, as exercised by `abci_test.go`),

followed by the theorems settling the claims about them.
-/

set_option autoImplicit false

/-! ## Part 1. `app/process/process_proposal.go` -/

namespace process

/-- Go `int64` arithmetic result: the mathematical value wrapped into `[-2^63, 2^63)`. -/
def wrapInt64 (x : Int) : Int :=
  (x + 9223372036854775808) % 18446744073709551616 - 9223372036854775808

/-- The part of `sdk.Context` the handler reads and writes: the block height and the
key/value chain built by `WithValue` (most recent binding first). -/
structure Context where
  blockHeight : Int
  values : List (String × Int)
deriving DecidableEq, Repr

/-- The constant `ConsensusRound = sdk.ContextKey("consensus_round")`. -/
def ConsensusRound : String := "consensus_round"

/-- The method `ctx.BlockHeight()`. -/
def Context.BlockHeight (ctx : Context) : Int := ctx.blockHeight

/-- The method `ctx.WithValue(key, value)`: a new context whose lookup of `key` gives `value`. -/
def Context.WithValue (ctx : Context) (key : String) (value : Int) : Context :=
  { ctx with values := (key, value) :: ctx.values }

/-- The method `ctx.Value(key)`: the most recent binding of `key`, if any. -/
def Context.Value (ctx : Context) (key : String) : Option Int :=
  ctx.values.lookup key

/-- The enum `abci.ResponseProcessProposal_ProposalStatus`. -/
inductive ProposalStatus where
  | UNKNOWN
  | ACCEPT
  | REJECT
deriving DecidableEq, Repr

/-- The struct `abci.ResponseProcessProposal`. -/
structure ResponseProcessProposal where
  Status : ProposalStatus
deriving DecidableEq, Repr

/-- The struct `abci.RequestProcessProposal`; the handler itself only reads `len(req.Txs)`
and hands the whole request to the decoder. -/
structure RequestProcessProposal where
  Txs : List (List Nat)
deriving DecidableEq, Repr

/-- The field `ProposedOperationsTx` of the decoded transactions, holding `msg`. -/
structure ProposedOperationsTx (Msg : Type) where
  msg : Msg
deriving DecidableEq, Repr

/-- The decoded transactions returned by `DecodeProcessProposalTxs`. The handler reads only
`ProposedOperationsTx.msg`; `rest` stands for the remaining fields. -/
structure ProcessProposalTxs (Msg Other : Type) where
  ProposedOperationsTx : ProposedOperationsTx Msg
  rest : Other
deriving DecidableEq, Repr

/-- The metric labels passed to `recordErrorMetricsWithLabel`. -/
inductive MetricLabel where
  | UpdateSmoothedPrices
  | Decode
  | Validate
deriving DecidableEq, Repr

/-- The three messages the handler writes with `ctx.Logger().Error`. -/
inductive LogLine (Err : Type) where
  | UpdateSmoothedPricesFailed (err : Err)
  | DecodeProcessProposalTxsFailed (err : Err)
  | ValidateFailed (err : Err)
deriving DecidableEq, Repr

/-- One observable call made by the handler body, with its arguments. -/
inductive Call (Err Msg Other : Type) where
  | UpdateSmoothedPrices (ctx : Context)
  | recordErrorMetricsWithLabel (label : MetricLabel)
  | LoggerError (ctx : Context) (line : LogLine Err)
  | DecodeProcessProposalTxs (ctx : Context) (req : RequestProcessProposal)
  | Validate (txs : ProcessProposalTxs Msg Other)
  | RecordMevMetrics (ctx : Context) (msg : Msg)
  | recordSuccessMetrics (ctx : Context) (txs : ProcessProposalTxs Msg Other) (numTxs : Nat)
  | ModuleMeasureSince
deriving DecidableEq, Repr

/-- The collaborators of the handler. Each one may read and change the keeper state `W`;
an `error` result of Go is `some err`, `nil` is `none`. The arguments that are fixed when the
handler is built (`txConfig.TxDecoder()` and `pricesKeeper` for the decoder, `stakingKeeper`
and `perpetualKeeper` for `RecordMevMetrics`) are part of the collaborators themselves. -/
structure Keepers (W Err Msg Other : Type) where
  UpdateSmoothedPrices : Context → W → W × Option Err
  DecodeProcessProposalTxs :
    Context → RequestProcessProposal → W → W × Except Err (ProcessProposalTxs Msg Other)
  Validate : ProcessProposalTxs Msg Other → W → W × Option Err
  RecordMevMetrics : Context → Msg → W → W

/-- The two variables captured by the closure that `ProcessProposalHandler` returns. -/
structure HandlerState where
  currentBlockHeight : Int
  currentConsensusRound : Int
deriving DecidableEq, Repr

/-- What one call of the handler leaves behind: the captured variables, the keeper state,
the response, and the calls it made in order. -/
structure Outcome (W Err Msg Other : Type) where
  state : HandlerState
  world : W
  response : ResponseProcessProposal
  calls : List (Call Err Msg Other)

variable {W Err Msg Other : Type}

/-- One call of the closure returned by `ProcessProposalHandler`, from captured variables
`st` and keeper state `w`. The deferred `telemetry.ModuleMeasureSince` runs last on every
return path. -/
def ProcessProposalHandler (k : Keepers W Err Msg Other) (st : HandlerState)
    (ctx : Context) (req : RequestProcessProposal) (w : W) : Outcome W Err Msg Other :=
  -- Update the current block height and consensus round.
  let st : HandlerState :=
    if ctx.BlockHeight ≠ st.currentBlockHeight then
      { currentBlockHeight := ctx.BlockHeight, currentConsensusRound := 0 }
    else
      { st with currentConsensusRound := wrapInt64 (st.currentConsensusRound + 1) }
  let ctx := ctx.WithValue ConsensusRound st.currentConsensusRound
  -- Update of smoothed prices; an error is recorded and logged, nothing else.
  let (w, updateErr) := k.UpdateSmoothedPrices ctx w
  let calls : List (Call Err Msg Other) :=
    Call.UpdateSmoothedPrices ctx ::
      (match updateErr with
       | some err =>
         [Call.recordErrorMetricsWithLabel MetricLabel.UpdateSmoothedPrices,
          Call.LoggerError ctx (LogLine.UpdateSmoothedPricesFailed err)]
       | none => [])
  match k.DecodeProcessProposalTxs ctx req w with
  | (w, Except.error err) =>
    { state := st, world := w
      response := { Status := ProposalStatus.REJECT }
      calls := calls ++
        [Call.DecodeProcessProposalTxs ctx req,
         Call.LoggerError ctx (LogLine.DecodeProcessProposalTxsFailed err),
         Call.recordErrorMetricsWithLabel MetricLabel.Decode,
         Call.ModuleMeasureSince] }
  | (w, Except.ok txs) =>
    match k.Validate txs w with
    | (w, some err) =>
      { state := st, world := w
        response := { Status := ProposalStatus.REJECT }
        calls := calls ++
          [Call.DecodeProcessProposalTxs ctx req,
           Call.Validate txs,
           Call.LoggerError ctx (LogLine.ValidateFailed err),
           Call.recordErrorMetricsWithLabel MetricLabel.Validate,
           Call.ModuleMeasureSince] }
    | (w, none) =>
      let w := k.RecordMevMetrics ctx txs.ProposedOperationsTx.msg w
      -- Record a success metric.
      { state := st, world := w
        response := { Status := ProposalStatus.ACCEPT }
        calls := calls ++
          [Call.DecodeProcessProposalTxs ctx req,
           Call.Validate txs,
           Call.RecordMevMetrics ctx txs.ProposedOperationsTx.msg,
           Call.recordSuccessMetrics ctx txs req.Txs.length,
           Call.ModuleMeasureSince] }

/-- Recogniser of a call to `pricesKeeper.UpdateSmoothedPrices`. -/
def Call.isUpdateSmoothedPrices : Call Err Msg Other → Bool
  | Call.UpdateSmoothedPrices _ => true
  | _ => false

/-- Recogniser of a call to `DecodeProcessProposalTxs`. -/
def Call.isDecode : Call Err Msg Other → Bool
  | Call.DecodeProcessProposalTxs _ _ => true
  | _ => false

/-- Recogniser of a call to `txs.Validate`. -/
def Call.isValidate : Call Err Msg Other → Bool
  | Call.Validate _ => true
  | _ => false

/-- Recogniser of a call to `clobKeeper.RecordMevMetrics`. -/
def Call.isRecordMevMetrics : Call Err Msg Other → Bool
  | Call.RecordMevMetrics _ _ => true
  | _ => false

/-- Recogniser of a call to `recordSuccessMetrics`. -/
def Call.isRecordSuccessMetrics : Call Err Msg Other → Bool
  | Call.recordSuccessMetrics _ _ _ => true
  | _ => false

/-- The context every collaborator of one handler call receives: the incoming context with
the new round counter stored under `ConsensusRound`. -/
def callContext (st : HandlerState) (ctx : Context) : Context :=
  ctx.WithValue ConsensusRound
    (if ctx.BlockHeight ≠ st.currentBlockHeight then 0
     else wrapInt64 (st.currentConsensusRound + 1))

/-- The keepers `k` with an `UpdateSmoothedPrices` that changes the keeper state exactly as
the one of `k` does but returns a nil error. -/
def Keepers.withUpdateSucceeding (k : Keepers W Err Msg Other) : Keepers W Err Msg Other :=
  { k with UpdateSmoothedPrices := fun ctx w => ((k.UpdateSmoothedPrices ctx w).1, none) }

/-- The keepers `k` with `RecordMevMetrics` replaced by `f`. -/
def Keepers.withRecordMevMetrics (k : Keepers W Err Msg Other) (f : Context → Msg → W → W) :
    Keepers W Err Msg Other :=
  { k with RecordMevMetrics := f }

/-- Sample keepers used to run the handler on concrete inputs: the keeper state counts
smoothed-price updates, the update fails on every round but the first of a height, decoding
fails on an empty transaction list, validation fails on more than two transactions. -/
def sampleKeepers : Keepers Nat Nat Nat Unit :=
  { UpdateSmoothedPrices := fun ctx w =>
      (w + 1, if ctx.Value ConsensusRound == some 0 then none else some 7)
    DecodeProcessProposalTxs := fun _ req w =>
      (w, if req.Txs.length = 0 then Except.error 8
          else Except.ok { ProposedOperationsTx := { msg := req.Txs.length }, rest := () })
    Validate := fun txs w => (w, if txs.ProposedOperationsTx.msg > 2 then some 9 else none)
    RecordMevMetrics := fun _ msg w => w + 100 * msg }

end process

/-! ## Part 2. `x/clob/types/mem_clob_keeper.go`: `ReplayPlaceOrder`

The sources declare `ReplayPlaceOrder` in the interface `MemClobKeeper` only; its body is
absent. The matching algorithm below follows section 4.1 of the specification (price-time
priority, fill sizing, collateralization gate, maker eviction, taker rejection) over the
book of section 3, with `ProcessSingleMatch` of the same interface as the collaborator that
checks and commits one fill. -/

namespace clob

/-- The side of an order: buy or sell. -/
inductive Order_Side where
  | BUY
  | SELL
deriving DecidableEq, Repr

/-- The identity of an order: owning account reference, client-chosen id, trading-pair id
and flags. -/
structure OrderId where
  Owner : String
  Number : Nat
  ClientId : Nat
  ClobPairId : Nat
  OrderFlags : Nat
deriving DecidableEq, Repr

/-- The expiration descriptor: a block-height bound or a block-time bound. -/
inductive GoodTil where
  | GoodTilBlock (block : Nat)
  | GoodTilBlockTime (time : Nat)
deriving DecidableEq, Repr

/-- An order: identity, side, size in base quantums, price in subticks, expiration,
time in force, reduce-only flag and client metadata. Immutable once constructed. -/
structure Order where
  OrderId : OrderId
  Side : Order_Side
  Quantums : Nat
  Subticks : Nat
  GoodTilOneof : GoodTil
  TimeInForce : Nat
  ReduceOnly : Bool
  ClientMetadata : Nat
deriving DecidableEq, Repr

variable {L U Err : Type}

end clob

/-! ## Part 3. `indexer/protocol/v1`: `OrderToIndexerOrder`

The mapper itself is not among the sources; `v1_mappers_test.go` fixes its field-by-field
result (`TestOrderToIndexerOrderV1`) and its panic on an order without expiration
(`TestOrderToIndexerOrder_Panic`). -/

namespace v1

/-- The struct `satypes.SubaccountId`. -/
structure SubaccountId where
  Owner : String
  Number : Nat
deriving DecidableEq, Repr

/-- The struct `clobtypes.OrderId`. -/
structure OrderId where
  SubaccountId : SubaccountId
  ClientId : Nat
  ClobPairId : Nat
  OrderFlags : Nat
deriving DecidableEq, Repr

/-- The two wrappers a non-nil `Order.GoodTilOneof` can hold: `*Order_GoodTilBlock`
(block-height bound) or `*Order_GoodTilBlockTime` (block-time bound). -/
inductive Order_GoodTilOneof where
  | GoodTilBlock (GoodTilBlock : Nat)
  | GoodTilBlockTime (GoodTilBlockTime : Nat)
deriving DecidableEq, Repr

/-- The struct `clobtypes.Order`, over the enum types `Side` and `TimeInForce`, whose value
lists are not among the sources. A nil `GoodTilOneof` is `none`. -/
structure Order (Side TimeInForce : Type) where
  OrderId : OrderId
  Side : Side
  Quantums : Nat
  Subticks : Nat
  GoodTilOneof : Option Order_GoodTilOneof
  TimeInForce : TimeInForce
  ReduceOnly : Bool
  ClientMetadata : Nat
deriving DecidableEq, Repr

/-- The struct `v1.IndexerSubaccountId`. -/
structure IndexerSubaccountId where
  Owner : String
  Number : Nat
deriving DecidableEq, Repr

/-- The struct `v1.IndexerOrderId`. -/
structure IndexerOrderId where
  SubaccountId : IndexerSubaccountId
  ClientId : Nat
  ClobPairId : Nat
  OrderFlags : Nat
deriving DecidableEq, Repr

/-- The two wrappers of `IndexerOrder.GoodTilOneof`: `*IndexerOrder_GoodTilBlock` and
`*IndexerOrder_GoodTilBlockTime`. -/
inductive IndexerOrder_GoodTilOneof where
  | GoodTilBlock (GoodTilBlock : Nat)
  | GoodTilBlockTime (GoodTilBlockTime : Nat)
deriving DecidableEq, Repr

/-- The struct `v1.IndexerOrder`, over the indexer enum types. -/
structure IndexerOrder (ISide ITimeInForce : Type) where
  OrderId : IndexerOrderId
  Side : ISide
  Quantums : Nat
  Subticks : Nat
  GoodTilOneof : Option IndexerOrder_GoodTilOneof
  TimeInForce : ITimeInForce
  ReduceOnly : Bool
  ClientMetadata : Nat
deriving DecidableEq, Repr

/-- Result of a Go call that either returns a value or panics. -/
inductive Outcome (α : Type) where
  | returns (value : α)
  | panics
deriving DecidableEq, Repr

/-- The mapper `v1.SubaccountIdToIndexerSubaccountId`, as `TestSubaccountIdToIndexerSubaccountId`
fixes it. -/
def SubaccountIdToIndexerSubaccountId (id : SubaccountId) : IndexerSubaccountId :=
  { Owner := id.Owner, Number := id.Number }

/-- The mapper `v1.OrderIdToIndexerOrderId`, as `TestOrderIdToIndexerOrderId` fixes it. -/
def OrderIdToIndexerOrderId (id : OrderId) : IndexerOrderId :=
  { SubaccountId := SubaccountIdToIndexerSubaccountId id.SubaccountId
    ClientId := id.ClientId
    ClobPairId := id.ClobPairId
    OrderFlags := id.OrderFlags }

variable {Side TimeInForce ISide ITimeInForce : Type}

/-- Modelled from the spec: `v1.OrderToIndexerOrder` is missing from the sources. The spec
says of an order's expiration descriptor that it is either a block-height bound or a
block-time bound, that exactly one must be set, and that setting neither is a fatal
invariant violation; `TestOrderToIndexerOrder_Panic` requires the panic for a nil
`GoodTilOneof` and `TestOrderToIndexerOrderV1` fixes every field of the result for the two
expiration kinds. The enum mappers `OrderSideToIndexerOrderSide` and
`OrderTimeInForceToIndexerOrderTimeInForce` are parameters. -/
def OrderToIndexerOrder (OrderSideToIndexerOrderSide : Side → ISide)
    (OrderTimeInForceToIndexerOrderTimeInForce : TimeInForce → ITimeInForce)
    (order : Order Side TimeInForce) : Outcome (IndexerOrder ISide ITimeInForce) :=
  match order.GoodTilOneof with
  | none => Outcome.panics
  | some goodTil =>
    Outcome.returns
      { OrderId := OrderIdToIndexerOrderId order.OrderId
        Side := OrderSideToIndexerOrderSide order.Side
        Quantums := order.Quantums
        Subticks := order.Subticks
        GoodTilOneof :=
          some (match goodTil with
            | Order_GoodTilOneof.GoodTilBlock b => IndexerOrder_GoodTilOneof.GoodTilBlock b
            | Order_GoodTilOneof.GoodTilBlockTime t =>
              IndexerOrder_GoodTilOneof.GoodTilBlockTime t)
        TimeInForce := OrderTimeInForceToIndexerOrderTimeInForce order.TimeInForce
        ReduceOnly := order.ReduceOnly
        ClientMetadata := order.ClientMetadata }

/-- The test constant `Order_Alice_Num1_Id2_Clob1_Buy67_Price5_GTB20`, as its name spells it;
the owner address, the order flags and the enum numbers are not visible in the test and are
stand-ins. -/
def Order_Alice_Num1_Id2_Clob1_Buy67_Price5_GTB20 : Order Nat Nat :=
  { OrderId :=
      { SubaccountId := { Owner := "alice", Number := 1 }
        ClientId := 2, ClobPairId := 1, OrderFlags := 0 }
    Side := 1
    Quantums := 67
    Subticks := 5
    GoodTilOneof := some (Order_GoodTilOneof.GoodTilBlock 20)
    TimeInForce := 0
    ReduceOnly := false
    ClientMetadata := 0 }

/-- The test constant `LongTermOrder_Bob_Num0_Id1_Clob0_Sell50_Price10_GTBT15`, as its name
spells it, with the same stand-ins. -/
def LongTermOrder_Bob_Num0_Id1_Clob0_Sell50_Price10_GTBT15 : Order Nat Nat :=
  { OrderId :=
      { SubaccountId := { Owner := "bob", Number := 0 }
        ClientId := 1, ClobPairId := 0, OrderFlags := 64 }
    Side := 2
    Quantums := 50
    Subticks := 10
    GoodTilOneof := some (Order_GoodTilOneof.GoodTilBlockTime 15)
    TimeInForce := 0
    ReduceOnly := false
    ClientMetadata := 0 }

end v1

/-! ## Part 4. `x/epochs`: `BeginBlocker`

`BeginBlocker` and the keeper are not among the sources; `abci_test.go` fixes the epoch
infos and events one call leaves behind. -/

namespace epochs

/-- The struct `types.EpochInfo` with the fields the test reads and writes. The integer
widths are not visible in the test, so the numeric fields are unbounded integers. -/
structure EpochInfo where
  Name : String
  NextTick : Int
  Duration : Int
  CurrentEpoch : Int
  CurrentEpochStartBlock : Int
  IsInitialized : Bool
  FastForwardNextTick : Bool
deriving DecidableEq, Repr

/-- The block time (Unix seconds) and block height of the `sdk.Context` of the call. -/
structure Context where
  blockTime : Int
  blockHeight : Int
deriving DecidableEq, Repr

/-- The new-epoch event (`metrics.EventTypeNewEpoch`) with its five attributes; the test
renders the numbers in decimal. -/
structure NewEpochEvent where
  EpochInfoName : String
  EpochNumber : Int
  EpochStartTickTime : Int
  EpochStartBlockTime : Int
  EpochStartBlock : Int
deriving DecidableEq, Repr

/-- Modelled from the spec: the per-epoch step of `epochs.BeginBlocker`, which is missing
from the sources. Per `TestBeginBlocker`: an initialized epoch whose `NextTick` is after the
block time is left as it is and emits nothing; an initialized epoch whose `NextTick` is at
or before the block time advances `NextTick` by one `Duration` (only one, however late the
block is), increments `CurrentEpoch`, records the block height as `CurrentEpochStartBlock`
and emits one new-epoch event with the new epoch number, the old `NextTick`, the block time
and the block height. An uninitialized epoch becomes initialized without an event; its
fast-forwarded `NextTick` is the parameter `fastForward`. -/
def MaybeStartNextEpoch (fastForward : Context → EpochInfo → Int) (ctx : Context)
    (epoch : EpochInfo) : EpochInfo × List NewEpochEvent :=
  if epoch.IsInitialized = false then
    ({ epoch with NextTick := fastForward ctx epoch, IsInitialized := true }, [])
  else if epoch.NextTick > ctx.blockTime then
    (epoch, [])
  else
    ({ epoch with
        NextTick := epoch.NextTick + epoch.Duration
        CurrentEpoch := epoch.CurrentEpoch + 1
        CurrentEpochStartBlock := ctx.blockHeight },
     [{ EpochInfoName := epoch.Name
        EpochNumber := epoch.CurrentEpoch + 1
        EpochStartTickTime := epoch.NextTick
        EpochStartBlockTime := ctx.blockTime
        EpochStartBlock := ctx.blockHeight }])

/-- Modelled from the spec: `epochs.BeginBlocker`, missing from the sources, as
`TestBeginBlocker` exercises it: every stored epoch info (`keeper.GetAllEpochInfo`) takes
the per-epoch step once, in store order; the result is the new store and the events
emitted. -/
def BeginBlocker (fastForward : Context → EpochInfo → Int) (ctx : Context) :
    List EpochInfo → List EpochInfo × List NewEpochEvent
  | [] => ([], [])
  | epoch :: rest =>
    let step := MaybeStartNextEpoch fastForward ctx epoch
    let tail := BeginBlocker fastForward ctx rest
    (step.1 :: tail.1, step.2 ++ tail.2)

/-- The method `keeper.GetEpochInfo`: the stored epoch info of a name, if any. -/
def GetEpochInfo (store : List EpochInfo) (name : String) : Option EpochInfo :=
  store.find? (fun e => e.Name == name)

/-- The new-epoch events emitted for the epoch of a name. -/
def eventsOf (events : List NewEpochEvent) (name : String) : List NewEpochEvent :=
  events.filter (fun ev => ev.EpochInfoName == name)

/-- An initialized epoch info of the test table: name, duration, next tick and counters. -/
def testEpoch (name : String) (nextTick epoch startBlock : Int) : EpochInfo :=
  { Name := name, Duration := 60, NextTick := nextTick, CurrentEpoch := epoch
    CurrentEpochStartBlock := startBlock, IsInitialized := true
    FastForwardNextTick := false }

end epochs

/-! ## Part 5. Sequences of calls to one handler of `ProcessProposalHandler` -/

namespace process

variable {W Err Msg Other : Type}

/-- One application of a collaborator to the keeper state, with its other arguments. -/
inductive Applied (Msg Other : Type) where
  | UpdateSmoothedPrices (ctx : Context)
  | DecodeProcessProposalTxs (ctx : Context) (req : RequestProcessProposal)
  | Validate (txs : ProcessProposalTxs Msg Other)
  | RecordMevMetrics (ctx : Context) (msg : Msg)
deriving DecidableEq, Repr

/-- Recogniser of an application of `pricesKeeper.UpdateSmoothedPrices`. -/
def Applied.isUpdateSmoothedPrices : Applied Msg Other → Bool
  | Applied.UpdateSmoothedPrices _ => true
  | _ => false

/-- Recogniser of an application of `DecodeProcessProposalTxs`. -/
def Applied.isDecode : Applied Msg Other → Bool
  | Applied.DecodeProcessProposalTxs _ _ => true
  | _ => false

/-- Recogniser of an application of `clobKeeper.RecordMevMetrics`. -/
def Applied.isRecordMevMetrics : Applied Msg Other → Bool
  | Applied.RecordMevMetrics _ _ => true
  | _ => false

/-- The keepers `k` made to record their own applications: the keeper state is paired with
the list of applications made so far, and each collaborator, when the handler applies it,
acts on the keeper state as in `k` and appends itself with its arguments. What the record
holds after a handler call is what the handler applied, in the order it applied it. -/
def Keepers.recording (k : Keepers W Err Msg Other) :
    Keepers (W × List (Applied Msg Other)) Err Msg Other :=
  { UpdateSmoothedPrices := fun ctx s =>
      (((k.UpdateSmoothedPrices ctx s.1).1, s.2 ++ [Applied.UpdateSmoothedPrices ctx]),
       (k.UpdateSmoothedPrices ctx s.1).2)
    DecodeProcessProposalTxs := fun ctx req s =>
      (((k.DecodeProcessProposalTxs ctx req s.1).1,
        s.2 ++ [Applied.DecodeProcessProposalTxs ctx req]),
       (k.DecodeProcessProposalTxs ctx req s.1).2)
    Validate := fun txs s =>
      (((k.Validate txs s.1).1, s.2 ++ [Applied.Validate txs]), (k.Validate txs s.1).2)
    RecordMevMetrics := fun ctx msg s =>
      (k.RecordMevMetrics ctx msg s.1, s.2 ++ [Applied.RecordMevMetrics ctx msg]) }

end process

/-! ## Part 6. `indexer/protocol/v1`: `PerpetualPositionsToIndexerPerpetualPositions`

The mappers are not among the sources; `v1_mappers_test.go` fixes their results
(`TestPerpetualPositionToIndexerPerpetualPosition`,
`TestPerpetualPositionsToIndexerPerpetualPositions`). -/

namespace v1

/-- The struct `satypes.PerpetualPosition` with the fields the test reads; a
`dtypes.SerializableInt` is an unbounded integer. -/
structure PerpetualPosition where
  PerpetualId : Nat
  Quantums : Int
  FundingIndex : Int
deriving DecidableEq, Repr

/-- The struct `v1.IndexerPerpetualPosition`. -/
structure IndexerPerpetualPosition where
  PerpetualId : Nat
  Quantums : Int
  FundingIndex : Int
  FundingPayment : Int
deriving DecidableEq, Repr

/-- Modelled from the spec: `v1.PerpetualPositionToIndexerPerpetualPosition` is missing from
the sources. `TestPerpetualPositionToIndexerPerpetualPosition` fixes its result: the id, the
quantums and the funding index of the position, and the funding payment handed in. -/
def PerpetualPositionToIndexerPerpetualPosition (position : PerpetualPosition)
    (fundingPayment : Int) : IndexerPerpetualPosition :=
  { PerpetualId := position.PerpetualId
    Quantums := position.Quantums
    FundingIndex := position.FundingIndex
    FundingPayment := fundingPayment }

/-- The loop over the positions of a non-nil slice: each position is mapped with the funding
payment the map holds for its perpetual id, `dtypes.ZeroInt()` when it holds none, and
appended to the result. -/
def appendIndexerPerpetualPositions (fundingPayments : Nat → Option Int) :
    List IndexerPerpetualPosition → List PerpetualPosition → List IndexerPerpetualPosition
  | acc, [] => acc
  | acc, position :: rest =>
    appendIndexerPerpetualPositions fundingPayments
      (acc ++ [PerpetualPositionToIndexerPerpetualPosition position
        (match fundingPayments position.PerpetualId with
         | some fundingPayment => fundingPayment
         | none => 0)])
      rest

/-- Modelled from the spec: `v1.PerpetualPositionsToIndexerPerpetualPositions` is missing
from the sources. `TestPerpetualPositionsToIndexerPerpetualPositions` fixes its results: a
nil slice (`none`) gives nil, an empty slice gives an empty slice, and every position is
mapped in order with the funding payment of its perpetual id, zero when the map has no entry
(a nil map has none). The Go map `map[uint32]dtypes.SerializableInt` is a partial function
on ids. -/
def PerpetualPositionsToIndexerPerpetualPositions (positions : Option (List PerpetualPosition))
    (fundingPayments : Nat → Option Int) : Option (List IndexerPerpetualPosition) :=
  match positions with
  | none => none
  | some positions => some (appendIndexerPerpetualPositions fundingPayments [] positions)

/-- The test constant `Short_Perp_1ETH_NegativeFunding`, as its name spells it; the exact
numbers are not visible in the test and are stand-ins. -/
def Short_Perp_1ETH_NegativeFunding : PerpetualPosition :=
  { PerpetualId := 1, Quantums := -1000000000, FundingIndex := -1 }

/-- The test constant `Long_Perp_1BTC_PositiveFunding`, as its name spells it, with
stand-in numbers. -/
def Long_Perp_1BTC_PositiveFunding : PerpetualPosition :=
  { PerpetualId := 0, Quantums := 100000000, FundingIndex := 2 }

/-- The funding-payment map of the test case "with non-zero funding payments": 100 for the
first position, -100 for the second. -/
def testFundingPayments : Nat → Option Int := fun id =>
  if id == Short_Perp_1ETH_NegativeFunding.PerpetualId then some 100
  else if id == Long_Perp_1BTC_PositiveFunding.PerpetualId then some (-100)
  else none

end v1

/-! ## Part 7. `daemons/server/bridge.go` -/

namespace server

/-- The struct `api.AddBridgeEventsRequest`; `BridgeEvents` is handed on as it is. -/
structure AddBridgeEventsRequest (BridgeEvent : Type) where
  BridgeEvents : List BridgeEvent
deriving DecidableEq, Repr

/-- The struct `api.AddBridgeEventsResponse`, returned empty. -/
structure AddBridgeEventsResponse where
deriving DecidableEq, Repr

/-- The method `BridgeEventManager.AddBridgeEvents` of the server's `bridgeEventManager`,
whose code is not among the sources: from the manager state `M` and the events it gives the
state it leaves and the error it returns (`none` for nil). -/
structure BridgeEventManager (M BridgeEvent Err : Type) where
  AddBridgeEvents : M → List BridgeEvent → M × Option Err

/-- What one call of `Server.AddBridgeEvents` leaves behind: the two returned values (a nil
response pointer is `none`), the manager state, and the argument of every call made to the
manager, in order. -/
structure AddBridgeEventsResult (M BridgeEvent Err : Type) where
  response : Option AddBridgeEventsResponse
  err : Option Err
  manager : M
  managerCalls : List (List BridgeEvent)

variable {M BridgeEvent Err : Type}

/-- The method `Server.AddBridgeEvents` for a server whose `bridgeEventManager` behaves as
`mgr` and is in state `m`; `ctx` is not used by the body. -/
def AddBridgeEvents (mgr : BridgeEventManager M BridgeEvent Err) (m : M)
    (req : AddBridgeEventsRequest BridgeEvent) : AddBridgeEventsResult M BridgeEvent Err :=
  match mgr.AddBridgeEvents m req.BridgeEvents with
  | (m1, some err) =>
    { response := none, err := some err, manager := m1, managerCalls := [req.BridgeEvents] }
  | (m1, none) =>
    { response := some {}, err := none, manager := m1, managerCalls := [req.BridgeEvents] }

/-- A sample manager: it keeps the events it was given and refuses an empty list with
error 1. -/
def sampleManager : BridgeEventManager (List Nat) Nat Nat :=
  { AddBridgeEvents := fun m events =>
      if events.length == 0 then (m, some 1) else (m ++ events, none) }

end server

/-! ## Theorems -/

namespace process

variable {W Err Msg Other : Type}

/-- The handler unfolded along the result of each collaborator. -/
theorem ProcessProposalHandler_eq (k : Keepers W Err Msg Other) (st : HandlerState)
    (ctx : Context) (req : RequestProcessProposal) (w : W) :
    ProcessProposalHandler k st ctx req w =
      (let st1 : HandlerState :=
        if ctx.BlockHeight ≠ st.currentBlockHeight then
          { currentBlockHeight := ctx.BlockHeight, currentConsensusRound := 0 }
        else
          { st with currentConsensusRound := wrapInt64 (st.currentConsensusRound + 1) }
      let ctx1 := callContext st ctx
      let up := k.UpdateSmoothedPrices ctx1 w
      let calls : List (Call Err Msg Other) :=
        Call.UpdateSmoothedPrices ctx1 ::
          (match up.2 with
           | some err =>
             [Call.recordErrorMetricsWithLabel MetricLabel.UpdateSmoothedPrices,
              Call.LoggerError ctx1 (LogLine.UpdateSmoothedPricesFailed err)]
           | none => [])
      let dec := k.DecodeProcessProposalTxs ctx1 req up.1
      match dec.2 with
      | Except.error err =>
        { state := st1, world := dec.1
          response := { Status := ProposalStatus.REJECT }
          calls := calls ++
            [Call.DecodeProcessProposalTxs ctx1 req,
             Call.LoggerError ctx1 (LogLine.DecodeProcessProposalTxsFailed err),
             Call.recordErrorMetricsWithLabel MetricLabel.Decode,
             Call.ModuleMeasureSince] }
      | Except.ok txs =>
        match (k.Validate txs dec.1).2 with
        | some err =>
          { state := st1, world := (k.Validate txs dec.1).1
            response := { Status := ProposalStatus.REJECT }
            calls := calls ++
              [Call.DecodeProcessProposalTxs ctx1 req,
               Call.Validate txs,
               Call.LoggerError ctx1 (LogLine.ValidateFailed err),
               Call.recordErrorMetricsWithLabel MetricLabel.Validate,
               Call.ModuleMeasureSince] }
        | none =>
          { state := st1
            world := k.RecordMevMetrics ctx1 txs.ProposedOperationsTx.msg (k.Validate txs dec.1).1
            response := { Status := ProposalStatus.ACCEPT }
            calls := calls ++
              [Call.DecodeProcessProposalTxs ctx1 req,
               Call.Validate txs,
               Call.RecordMevMetrics ctx1 txs.ProposedOperationsTx.msg,
               Call.recordSuccessMetrics ctx1 txs req.Txs.length,
               Call.ModuleMeasureSince] }) := by
  unfold ProcessProposalHandler callContext
  by_cases hh : ctx.BlockHeight = st.currentBlockHeight
  all_goals
    simp only [hh, ne_eq, not_true_eq_false, not_false_eq_true, if_true, if_false]
    split
    · rename_i w2 e hd
      simp only [hd]
    · rename_i w2 txs hd
      simp only [hd]
      split
      · rename_i w3 e hv
        simp only [hv]
      · rename_i w3 hv
        simp only [hv]

/-- The captured variables after one call depend only on the old ones and the block height. -/
theorem ProcessProposalHandler_state (k : Keepers W Err Msg Other) (st : HandlerState)
    (ctx : Context) (req : RequestProcessProposal) (w : W) :
    (ProcessProposalHandler k st ctx req w).state =
      if ctx.BlockHeight ≠ st.currentBlockHeight then
        { currentBlockHeight := ctx.BlockHeight, currentConsensusRound := 0 }
      else
        { st with currentConsensusRound := wrapInt64 (st.currentConsensusRound + 1) } := by
  rw [ProcessProposalHandler_eq]
  simp only []
  split
  · rfl
  · split <;> rfl

/-- The calls of one handler call, as a function of the collaborators' results. -/
theorem ProcessProposalHandler_calls (k : Keepers W Err Msg Other) (st : HandlerState)
    (ctx : Context) (req : RequestProcessProposal) (w : W) :
    (ProcessProposalHandler k st ctx req w).calls =
      (Call.UpdateSmoothedPrices (callContext st ctx) ::
        (match (k.UpdateSmoothedPrices (callContext st ctx) w).2 with
         | some err =>
           [Call.recordErrorMetricsWithLabel MetricLabel.UpdateSmoothedPrices,
            Call.LoggerError (callContext st ctx) (LogLine.UpdateSmoothedPricesFailed err)]
         | none => [])) ++
      Call.DecodeProcessProposalTxs (callContext st ctx) req ::
        (match (k.DecodeProcessProposalTxs (callContext st ctx) req
            (k.UpdateSmoothedPrices (callContext st ctx) w).1) with
         | (_, Except.error err) =>
           [Call.LoggerError (callContext st ctx) (LogLine.DecodeProcessProposalTxsFailed err),
            Call.recordErrorMetricsWithLabel MetricLabel.Decode,
            Call.ModuleMeasureSince]
         | (w2, Except.ok txs) =>
           Call.Validate txs ::
             (match (k.Validate txs w2).2 with
              | some err =>
                [Call.LoggerError (callContext st ctx) (LogLine.ValidateFailed err),
                 Call.recordErrorMetricsWithLabel MetricLabel.Validate,
                 Call.ModuleMeasureSince]
              | none =>
                [Call.RecordMevMetrics (callContext st ctx) txs.ProposedOperationsTx.msg,
                 Call.recordSuccessMetrics (callContext st ctx) txs req.Txs.length,
                 Call.ModuleMeasureSince])) := by
  rw [ProcessProposalHandler_eq]
  simp only []
  rcases hd : k.DecodeProcessProposalTxs (callContext st ctx) req
      (k.UpdateSmoothedPrices (callContext st ctx) w).1 with ⟨w2, d⟩
  cases d with
  | error e => rfl
  | ok txs =>
    simp only []
    cases hv : (k.Validate txs w2).2 <;> rfl

/-- The response status of one handler call, as a function of the collaborators' results. -/
theorem ProcessProposalHandler_status (k : Keepers W Err Msg Other) (st : HandlerState)
    (ctx : Context) (req : RequestProcessProposal) (w : W) :
    (ProcessProposalHandler k st ctx req w).response.Status =
      (match (k.DecodeProcessProposalTxs (callContext st ctx) req
          (k.UpdateSmoothedPrices (callContext st ctx) w).1) with
       | (_, Except.error _) => ProposalStatus.REJECT
       | (w2, Except.ok txs) =>
         (match (k.Validate txs w2).2 with
          | some _ => ProposalStatus.REJECT
          | none => ProposalStatus.ACCEPT)) := by
  rw [ProcessProposalHandler_eq]
  simp only []
  rcases hd : k.DecodeProcessProposalTxs (callContext st ctx) req
      (k.UpdateSmoothedPrices (callContext st ctx) w).1 with ⟨w2, d⟩
  cases d with
  | error e => rfl
  | ok txs =>
    simp only []
    cases hv : (k.Validate txs w2).2 <;> rfl

/-- The keeper state after one handler call, as a function of the collaborators' results. -/
theorem ProcessProposalHandler_world (k : Keepers W Err Msg Other) (st : HandlerState)
    (ctx : Context) (req : RequestProcessProposal) (w : W) :
    (ProcessProposalHandler k st ctx req w).world =
      (match (k.DecodeProcessProposalTxs (callContext st ctx) req
          (k.UpdateSmoothedPrices (callContext st ctx) w).1) with
       | (w2, Except.error _) => w2
       | (w2, Except.ok txs) =>
         (match (k.Validate txs w2).2 with
          | some _ => (k.Validate txs w2).1
          | none =>
            k.RecordMevMetrics (callContext st ctx) txs.ProposedOperationsTx.msg
              (k.Validate txs w2).1)) := by
  rw [ProcessProposalHandler_eq]
  simp only []
  rcases hd : k.DecodeProcessProposalTxs (callContext st ctx) req
      (k.UpdateSmoothedPrices (callContext st ctx) w).1 with ⟨w2, d⟩
  cases d with
  | error e => rfl
  | ok txs =>
    simp only []
    cases hv : (k.Validate txs w2).2 <;> rfl

/-- The handler run on recording keepers: the keeper state is the one of the plain run, and the
record is extended by the applications the run made, in order: the price update, the
decoder, then `Validate` when decoding succeeded, then `RecordMevMetrics` when validation
succeeded as well. -/
theorem ProcessProposalHandler_recording (k : Keepers W Err Msg Other) (st : HandlerState)
    (ctx : Context) (req : RequestProcessProposal) (w : W) (log : List (Applied Msg Other)) :
    (ProcessProposalHandler k.recording st ctx req (w, log)).world =
      ((ProcessProposalHandler k st ctx req w).world,
       log ++ Applied.UpdateSmoothedPrices (callContext st ctx) ::
         Applied.DecodeProcessProposalTxs (callContext st ctx) req ::
         (match (k.DecodeProcessProposalTxs (callContext st ctx) req
             (k.UpdateSmoothedPrices (callContext st ctx) w).1) with
          | (_, Except.error _) => []
          | (w2, Except.ok txs) =>
            Applied.Validate txs ::
              (match (k.Validate txs w2).2 with
               | some _ => []
               | none =>
                 [Applied.RecordMevMetrics (callContext st ctx)
                   txs.ProposedOperationsTx.msg]))) := by
  rw [ProcessProposalHandler_world, ProcessProposalHandler_world]
  simp only [Keepers.recording]
  rcases hd : k.DecodeProcessProposalTxs (callContext st ctx) req
      (k.UpdateSmoothedPrices (callContext st ctx) w).1 with ⟨w2, d⟩
  cases d with
  | error e => simp [hd]
  | ok txs =>
    cases hv : (k.Validate txs w2).2 <;> simp [hd, hv]

/-- C2. In every call of the handler `UpdateSmoothedPrices` is invoked exactly once and before
`DecodeProcessProposalTxs`, in each of the three outcomes. On the calls of the handler body:
one `UpdateSmoothedPrices` call, placed before the single decode call. On what the
collaborators themselves record when applied: the record of a call starts with one
application of `UpdateSmoothedPrices`, followed by the application of the decoder, and
holds no other application of either. On the keeper state: in each outcome (decode error and
REJECT, `Validate` error and REJECT, both succeed and ACCEPT) the decoder was applied to the
state that one `UpdateSmoothedPrices` application left of the initial state. -/
theorem UpdateSmoothedPrices_once_before_decode (k : Keepers W Err Msg Other)
    (st : HandlerState) (ctx : Context) (req : RequestProcessProposal) (w : W) :
    (ProcessProposalHandler k st ctx req w).calls.countP Call.isUpdateSmoothedPrices = 1 ∧
    (∃ pre post,
      (ProcessProposalHandler k st ctx req w).calls =
        Call.UpdateSmoothedPrices (callContext st ctx) :: pre ++
          Call.DecodeProcessProposalTxs (callContext st ctx) req :: post ∧
      (∀ c ∈ pre, c.isUpdateSmoothedPrices = false ∧ c.isDecode = false) ∧
      (∀ c ∈ post, c.isUpdateSmoothedPrices = false ∧ c.isDecode = false)) ∧
    (ProcessProposalHandler k.recording st ctx req (w, [])).world.2.countP
        Applied.isUpdateSmoothedPrices = 1 ∧
    (∃ post,
      (ProcessProposalHandler k.recording st ctx req (w, [])).world.2 =
        Applied.UpdateSmoothedPrices (callContext st ctx) ::
          Applied.DecodeProcessProposalTxs (callContext st ctx) req :: post ∧
      (∀ a ∈ post, a.isUpdateSmoothedPrices = false ∧ a.isDecode = false)) ∧
    (∀ w2 err,
      k.DecodeProcessProposalTxs (callContext st ctx) req
          (k.UpdateSmoothedPrices (callContext st ctx) w).1 = (w2, Except.error err) →
      (ProcessProposalHandler k st ctx req w).response.Status = ProposalStatus.REJECT ∧
      (ProcessProposalHandler k st ctx req w).world = w2) ∧
    (∀ w2 txs err,
      k.DecodeProcessProposalTxs (callContext st ctx) req
          (k.UpdateSmoothedPrices (callContext st ctx) w).1 = (w2, Except.ok txs) →
      (k.Validate txs w2).2 = some err →
      (ProcessProposalHandler k st ctx req w).response.Status = ProposalStatus.REJECT ∧
      (ProcessProposalHandler k st ctx req w).world = (k.Validate txs w2).1) ∧
    (∀ w2 txs,
      k.DecodeProcessProposalTxs (callContext st ctx) req
          (k.UpdateSmoothedPrices (callContext st ctx) w).1 = (w2, Except.ok txs) →
      (k.Validate txs w2).2 = none →
      (ProcessProposalHandler k st ctx req w).response.Status = ProposalStatus.ACCEPT ∧
      (ProcessProposalHandler k st ctx req w).world =
        k.RecordMevMetrics (callContext st ctx) txs.ProposedOperationsTx.msg
          (k.Validate txs w2).1) := by
  refine ⟨?_, ?_, ?_, ?_, ?_, ?_, ?_⟩
  · rw [ProcessProposalHandler_calls]
    rcases hd : k.DecodeProcessProposalTxs (callContext st ctx) req
        (k.UpdateSmoothedPrices (callContext st ctx) w).1 with ⟨w2, d⟩
    cases d with
    | error e =>
      cases hu : (k.UpdateSmoothedPrices (callContext st ctx) w).2 <;>
        simp [List.countP_cons, Call.isUpdateSmoothedPrices]
    | ok txs =>
      cases hu : (k.UpdateSmoothedPrices (callContext st ctx) w).2 <;>
        cases hv : (k.Validate txs w2).2 <;>
        simp [hv, List.countP_cons, Call.isUpdateSmoothedPrices]
  · rw [ProcessProposalHandler_calls]
    rcases hd : k.DecodeProcessProposalTxs (callContext st ctx) req
        (k.UpdateSmoothedPrices (callContext st ctx) w).1 with ⟨w2, d⟩
    refine ⟨_, _, rfl, ?_, ?_⟩
    · cases hu : (k.UpdateSmoothedPrices (callContext st ctx) w).2 <;>
        simp [Call.isUpdateSmoothedPrices, Call.isDecode]
    · cases d with
      | error e => simp [Call.isUpdateSmoothedPrices, Call.isDecode]
      | ok txs =>
        cases hv : (k.Validate txs w2).2 <;>
          simp [hv, Call.isUpdateSmoothedPrices, Call.isDecode]
  · rw [ProcessProposalHandler_recording]
    rcases hd : k.DecodeProcessProposalTxs (callContext st ctx) req
        (k.UpdateSmoothedPrices (callContext st ctx) w).1 with ⟨w2, d⟩
    cases d with
    | error e => simp [List.countP_cons, Applied.isUpdateSmoothedPrices]
    | ok txs =>
      cases hv : (k.Validate txs w2).2 <;>
        simp [hv, List.countP_cons, Applied.isUpdateSmoothedPrices]
  · rw [ProcessProposalHandler_recording]
    rcases hd : k.DecodeProcessProposalTxs (callContext st ctx) req
        (k.UpdateSmoothedPrices (callContext st ctx) w).1 with ⟨w2, d⟩
    simp only [List.nil_append]
    refine ⟨_, rfl, ?_⟩
    cases d with
    | error e => simp
    | ok txs =>
      cases hv : (k.Validate txs w2).2 <;>
        simp [hv, Applied.isUpdateSmoothedPrices, Applied.isDecode]
  · intro w2 err hd
    rw [ProcessProposalHandler_status, ProcessProposalHandler_world, hd]
    exact ⟨rfl, rfl⟩
  · intro w2 txs err hd hv
    rw [ProcessProposalHandler_status, ProcessProposalHandler_world, hd]
    simp [hv]
  · intro w2 txs hd hv
    rw [ProcessProposalHandler_status, ProcessProposalHandler_world, hd]
    simp [hv]

/-- Witness of C2 on the sample keepers, whose keeper state counts the price updates: after
an accepted, a decode-rejected and a validation-rejected proposal the recorded applications
start with the one update and the decoder, and the update was applied once (the count is 1
on the rejecting paths, 101 after the MEV record of the accepted one). -/
theorem UpdateSmoothedPrices_once_before_decode_witness :
    (ProcessProposalHandler sampleKeepers.recording ⟨5, 0⟩ ⟨6, []⟩ ⟨[[1]]⟩ (0, [])).world.2 =
      [Applied.UpdateSmoothedPrices ⟨6, [("consensus_round", 0)]⟩,
       Applied.DecodeProcessProposalTxs ⟨6, [("consensus_round", 0)]⟩ ⟨[[1]]⟩,
       Applied.Validate { ProposedOperationsTx := { msg := 1 }, rest := () },
       Applied.RecordMevMetrics ⟨6, [("consensus_round", 0)]⟩ 1] ∧
    (ProcessProposalHandler sampleKeepers ⟨5, 0⟩ ⟨6, []⟩ ⟨[[1]]⟩ 0).world = 101 ∧
    (ProcessProposalHandler sampleKeepers ⟨5, 0⟩ ⟨6, []⟩ ⟨[]⟩ 0).world = 1 ∧
    (ProcessProposalHandler sampleKeepers ⟨5, 0⟩ ⟨6, []⟩ ⟨[[1], [2], [3]]⟩ 0).world = 1 :=
  ⟨by decide,
   ((UpdateSmoothedPrices_once_before_decode sampleKeepers ⟨5, 0⟩ ⟨6, []⟩ ⟨[[1]]⟩
      0).2.2.2.2.2.2 1 { ProposedOperationsTx := { msg := 1 }, rest := () } rfl rfl).2,
   ((UpdateSmoothedPrices_once_before_decode sampleKeepers ⟨5, 0⟩ ⟨6, []⟩ ⟨[]⟩
      0).2.2.2.2.1 1 8 rfl).2,
   ((UpdateSmoothedPrices_once_before_decode sampleKeepers ⟨5, 0⟩ ⟨6, []⟩ ⟨[[1], [2], [3]]⟩
      0).2.2.2.2.2.1 1 { ProposedOperationsTx := { msg := 3 }, rest := () } 9 rfl rfl).2⟩

/-- C3. The response status is ACCEPT or REJECT (never UNKNOWN); it is ACCEPT exactly when
`DecodeProcessProposalTxs` returns transactions and `Validate` on them returns no error;
a decode error gives REJECT and a `Validate` error gives REJECT. -/
theorem ProcessProposalHandler_verdict (k : Keepers W Err Msg Other) (st : HandlerState)
    (ctx : Context) (req : RequestProcessProposal) (w : W) :
    ((ProcessProposalHandler k st ctx req w).response.Status = ProposalStatus.ACCEPT ∨
      (ProcessProposalHandler k st ctx req w).response.Status = ProposalStatus.REJECT) ∧
    ((ProcessProposalHandler k st ctx req w).response.Status = ProposalStatus.ACCEPT ↔
      ∃ w2 txs,
        k.DecodeProcessProposalTxs (callContext st ctx) req
          (k.UpdateSmoothedPrices (callContext st ctx) w).1 = (w2, Except.ok txs) ∧
        (k.Validate txs w2).2 = none) ∧
    (∀ w2 err,
      k.DecodeProcessProposalTxs (callContext st ctx) req
          (k.UpdateSmoothedPrices (callContext st ctx) w).1 = (w2, Except.error err) →
      (ProcessProposalHandler k st ctx req w).response.Status = ProposalStatus.REJECT) ∧
    (∀ w2 txs err,
      k.DecodeProcessProposalTxs (callContext st ctx) req
          (k.UpdateSmoothedPrices (callContext st ctx) w).1 = (w2, Except.ok txs) →
      (k.Validate txs w2).2 = some err →
      (ProcessProposalHandler k st ctx req w).response.Status = ProposalStatus.REJECT) := by
  have hs := ProcessProposalHandler_status k st ctx req w
  rcases hd : k.DecodeProcessProposalTxs (callContext st ctx) req
      (k.UpdateSmoothedPrices (callContext st ctx) w).1 with ⟨w2, d⟩
  rw [hd] at hs
  cases d with
  | error e =>
    simp only [] at hs
    rw [hs]
    simp
  | ok txs =>
    cases hv : (k.Validate txs w2).2 with
    | none =>
      simp only [hv] at hs
      rw [hs]
      refine ⟨Or.inl rfl, ⟨fun _ => ⟨w2, txs, rfl, hv⟩, fun _ => rfl⟩, ?_, ?_⟩
      · intro w3 err h3
        simp at h3
      · intro w3 txs3 err h3 hv3
        simp only [Prod.mk.injEq, Except.ok.injEq] at h3
        obtain ⟨rfl, rfl⟩ := h3
        rw [hv] at hv3
        cases hv3
    | some e =>
      simp only [hv] at hs
      rw [hs]
      simp [hv]

/-- A response is determined by its status. -/
theorem ResponseProcessProposal_ext (a b : ResponseProcessProposal)
    (h : a.Status = b.Status) : a = b := by
  cases a; cases b; simp_all

/-- C4. When `UpdateSmoothedPrices` returns an error the handler still goes on to decode and
validate, and the error changes nothing in the evaluation. The response, the captured
variables and the keeper state equal those of the run in which `UpdateSmoothedPrices` has the
same effect but returns nil (so decode and validation see the same inputs); the error only
adds one error metric and one log line to the calls. The decoder is applied, and `Validate`
is applied when decoding succeeded, as the collaborators' own record and the keeper state
show; the status is ACCEPT exactly when decode and validation both succeed, and REJECT after
a decode error and after a `Validate` error. -/
theorem UpdateSmoothedPrices_error_keeps_verdict (k : Keepers W Err Msg Other)
    (st : HandlerState) (ctx : Context) (req : RequestProcessProposal) (w : W) (err : Err)
    (hfail : (k.UpdateSmoothedPrices (callContext st ctx) w).2 = some err) :
    (ProcessProposalHandler k st ctx req w).response =
      (ProcessProposalHandler k.withUpdateSucceeding st ctx req w).response ∧
    Call.DecodeProcessProposalTxs (callContext st ctx) req ∈
      (ProcessProposalHandler k st ctx req w).calls ∧
    (∀ w2 txs,
      k.DecodeProcessProposalTxs (callContext st ctx) req
          (k.UpdateSmoothedPrices (callContext st ctx) w).1 = (w2, Except.ok txs) →
      Call.Validate txs ∈ (ProcessProposalHandler k st ctx req w).calls ∧
      ((k.Validate txs w2).2 = none →
        (ProcessProposalHandler k st ctx req w).response.Status = ProposalStatus.ACCEPT)) ∧
    (ProcessProposalHandler k st ctx req w).calls =
      Call.UpdateSmoothedPrices (callContext st ctx) ::
        Call.recordErrorMetricsWithLabel MetricLabel.UpdateSmoothedPrices ::
        Call.LoggerError (callContext st ctx) (LogLine.UpdateSmoothedPricesFailed err) ::
        (ProcessProposalHandler k.withUpdateSucceeding st ctx req w).calls.tail ∧
    (ProcessProposalHandler k st ctx req w).state =
      (ProcessProposalHandler k.withUpdateSucceeding st ctx req w).state ∧
    (ProcessProposalHandler k st ctx req w).world =
      (ProcessProposalHandler k.withUpdateSucceeding st ctx req w).world ∧
    ((ProcessProposalHandler k st ctx req w).response.Status = ProposalStatus.ACCEPT ↔
      ∃ w2 txs,
        k.DecodeProcessProposalTxs (callContext st ctx) req
          (k.UpdateSmoothedPrices (callContext st ctx) w).1 = (w2, Except.ok txs) ∧
        (k.Validate txs w2).2 = none) ∧
    (∀ w2 err2,
      k.DecodeProcessProposalTxs (callContext st ctx) req
          (k.UpdateSmoothedPrices (callContext st ctx) w).1 = (w2, Except.error err2) →
      (ProcessProposalHandler k st ctx req w).response.Status = ProposalStatus.REJECT ∧
      (ProcessProposalHandler k st ctx req w).world = w2 ∧
      (ProcessProposalHandler k.recording st ctx req (w, [])).world.2 =
        [Applied.UpdateSmoothedPrices (callContext st ctx),
         Applied.DecodeProcessProposalTxs (callContext st ctx) req]) ∧
    (∀ w2 txs err2,
      k.DecodeProcessProposalTxs (callContext st ctx) req
          (k.UpdateSmoothedPrices (callContext st ctx) w).1 = (w2, Except.ok txs) →
      (k.Validate txs w2).2 = some err2 →
      (ProcessProposalHandler k st ctx req w).response.Status = ProposalStatus.REJECT ∧
      (ProcessProposalHandler k st ctx req w).world = (k.Validate txs w2).1 ∧
      (ProcessProposalHandler k.recording st ctx req (w, [])).world.2 =
        [Applied.UpdateSmoothedPrices (callContext st ctx),
         Applied.DecodeProcessProposalTxs (callContext st ctx) req,
         Applied.Validate txs]) ∧
    (∀ w2 txs,
      k.DecodeProcessProposalTxs (callContext st ctx) req
          (k.UpdateSmoothedPrices (callContext st ctx) w).1 = (w2, Except.ok txs) →
      (k.Validate txs w2).2 = none →
      (ProcessProposalHandler k st ctx req w).response.Status = ProposalStatus.ACCEPT ∧
      (ProcessProposalHandler k st ctx req w).world =
        k.RecordMevMetrics (callContext st ctx) txs.ProposedOperationsTx.msg
          (k.Validate txs w2).1 ∧
      (ProcessProposalHandler k.recording st ctx req (w, [])).world.2 =
        [Applied.UpdateSmoothedPrices (callContext st ctx),
         Applied.DecodeProcessProposalTxs (callContext st ctx) req,
         Applied.Validate txs,
         Applied.RecordMevMetrics (callContext st ctx) txs.ProposedOperationsTx.msg]) := by
  refine ⟨?_, ?_, ?_, ?_, ?_, ?_, ?_, ?_, ?_, ?_⟩
  · apply ResponseProcessProposal_ext
    rw [ProcessProposalHandler_status, ProcessProposalHandler_status]
    rfl
  · rw [ProcessProposalHandler_calls]
    simp
  · intro w2 txs hd
    constructor
    · rw [ProcessProposalHandler_calls, hd]
      simp
    · intro hv
      rw [ProcessProposalHandler_status, hd]
      simp [hv]
  · rw [ProcessProposalHandler_calls, ProcessProposalHandler_calls, hfail]
    simp [Keepers.withUpdateSucceeding]
  · rw [ProcessProposalHandler_state, ProcessProposalHandler_state]
  · rw [ProcessProposalHandler_world, ProcessProposalHandler_world]
    rfl
  · rw [ProcessProposalHandler_status]
    rcases hd : k.DecodeProcessProposalTxs (callContext st ctx) req
        (k.UpdateSmoothedPrices (callContext st ctx) w).1 with ⟨w2, d⟩
    cases d with
    | error e => simp
    | ok txs =>
      cases hv : (k.Validate txs w2).2 with
      | none =>
        simp only [hv, true_iff]
        exact ⟨w2, txs, rfl, hv⟩
      | some e =>
        simp only [hv, reduceCtorEq, false_iff, not_exists, not_and]
        intro w3 txs3 h3
        simp only [Prod.mk.injEq, Except.ok.injEq] at h3
        obtain ⟨rfl, rfl⟩ := h3
        simp [hv]
  · intro w2 err2 hd
    rw [ProcessProposalHandler_status, ProcessProposalHandler_world,
      ProcessProposalHandler_recording, hd]
    exact ⟨rfl, rfl, rfl⟩
  · intro w2 txs err2 hd hv
    rw [ProcessProposalHandler_status, ProcessProposalHandler_world,
      ProcessProposalHandler_recording, hd]
    simp [hv]
  · intro w2 txs hd hv
    rw [ProcessProposalHandler_status, ProcessProposalHandler_world,
      ProcessProposalHandler_recording, hd]
    simp [hv]

/-- C5. `RecordMevMetrics` never affects the verdict and is invoked only after decode and
validation both succeeded. On that path the status is ACCEPT, `RecordMevMetrics` is called
once, after the `DecodeProcessProposalTxs` and `Validate` calls, and it is applied once to
the keeper state `Validate` left, with the message of the decoded proposed-operations
transaction (the collaborators' own record ends with that application). On the two
rejecting paths it is neither called nor applied: the keeper state is the one the decoder
or `Validate` left and the record holds no `RecordMevMetrics`. Replacing `RecordMevMetrics`
by any other behaviour `f` leaves the response unchanged, and `f` is then what is applied,
on the accepting path only. -/
theorem RecordMevMetrics_never_affects_verdict (k : Keepers W Err Msg Other)
    (st : HandlerState) (ctx : Context) (req : RequestProcessProposal) (w : W)
    (f : Context → Msg → W → W) :
    (ProcessProposalHandler (k.withRecordMevMetrics f) st ctx req w).response =
      (ProcessProposalHandler k st ctx req w).response ∧
    (∀ w2 txs,
      k.DecodeProcessProposalTxs (callContext st ctx) req
          (k.UpdateSmoothedPrices (callContext st ctx) w).1 = (w2, Except.ok txs) →
      (k.Validate txs w2).2 = none →
      (ProcessProposalHandler k st ctx req w).response.Status = ProposalStatus.ACCEPT ∧
      ∃ pre post,
        (ProcessProposalHandler k st ctx req w).calls =
          pre ++ Call.RecordMevMetrics (callContext st ctx) txs.ProposedOperationsTx.msg ::
            post ∧
        Call.DecodeProcessProposalTxs (callContext st ctx) req ∈ pre ∧
        Call.Validate txs ∈ pre ∧
        (∀ c ∈ pre, c.isRecordMevMetrics = false) ∧
        (∀ c ∈ post, c.isRecordMevMetrics = false)) ∧
    (∀ w2 err,
      k.DecodeProcessProposalTxs (callContext st ctx) req
          (k.UpdateSmoothedPrices (callContext st ctx) w).1 = (w2, Except.error err) →
      ∀ c ∈ (ProcessProposalHandler k st ctx req w).calls, c.isRecordMevMetrics = false) ∧
    (∀ w2 txs err,
      k.DecodeProcessProposalTxs (callContext st ctx) req
          (k.UpdateSmoothedPrices (callContext st ctx) w).1 = (w2, Except.ok txs) →
      (k.Validate txs w2).2 = some err →
      ∀ c ∈ (ProcessProposalHandler k st ctx req w).calls, c.isRecordMevMetrics = false) ∧
    (∀ w2 txs,
      k.DecodeProcessProposalTxs (callContext st ctx) req
          (k.UpdateSmoothedPrices (callContext st ctx) w).1 = (w2, Except.ok txs) →
      (k.Validate txs w2).2 = none →
      (ProcessProposalHandler k st ctx req w).world =
        k.RecordMevMetrics (callContext st ctx) txs.ProposedOperationsTx.msg
          (k.Validate txs w2).1 ∧
      (ProcessProposalHandler (k.withRecordMevMetrics f) st ctx req w).world =
        f (callContext st ctx) txs.ProposedOperationsTx.msg (k.Validate txs w2).1 ∧
      (ProcessProposalHandler (k.withRecordMevMetrics f) st ctx req w).response.Status =
        ProposalStatus.ACCEPT ∧
      (ProcessProposalHandler k.recording st ctx req (w, [])).world.2 =
        [Applied.UpdateSmoothedPrices (callContext st ctx),
         Applied.DecodeProcessProposalTxs (callContext st ctx) req,
         Applied.Validate txs,
         Applied.RecordMevMetrics (callContext st ctx) txs.ProposedOperationsTx.msg]) ∧
    (∀ w2 err,
      k.DecodeProcessProposalTxs (callContext st ctx) req
          (k.UpdateSmoothedPrices (callContext st ctx) w).1 = (w2, Except.error err) →
      (ProcessProposalHandler k st ctx req w).response.Status = ProposalStatus.REJECT ∧
      (ProcessProposalHandler k st ctx req w).world = w2 ∧
      (ProcessProposalHandler (k.withRecordMevMetrics f) st ctx req w).world = w2 ∧
      (∀ a ∈ (ProcessProposalHandler k.recording st ctx req (w, [])).world.2,
        a.isRecordMevMetrics = false)) ∧
    (∀ w2 txs err,
      k.DecodeProcessProposalTxs (callContext st ctx) req
          (k.UpdateSmoothedPrices (callContext st ctx) w).1 = (w2, Except.ok txs) →
      (k.Validate txs w2).2 = some err →
      (ProcessProposalHandler k st ctx req w).response.Status = ProposalStatus.REJECT ∧
      (ProcessProposalHandler k st ctx req w).world = (k.Validate txs w2).1 ∧
      (ProcessProposalHandler (k.withRecordMevMetrics f) st ctx req w).world =
        (k.Validate txs w2).1 ∧
      (∀ a ∈ (ProcessProposalHandler k.recording st ctx req (w, [])).world.2,
        a.isRecordMevMetrics = false)) := by
  have hdf : (k.withRecordMevMetrics f).DecodeProcessProposalTxs (callContext st ctx) req
      ((k.withRecordMevMetrics f).UpdateSmoothedPrices (callContext st ctx) w).1 =
      k.DecodeProcessProposalTxs (callContext st ctx) req
        (k.UpdateSmoothedPrices (callContext st ctx) w).1 := rfl
  refine ⟨?_, ?_, ?_, ?_, ?_, ?_, ?_⟩
  · apply ResponseProcessProposal_ext
    rw [ProcessProposalHandler_status, ProcessProposalHandler_status]
    rfl
  · intro w2 txs hd hv
    constructor
    · rw [ProcessProposalHandler_status, hd]
      simp [hv]
    · refine ⟨(Call.UpdateSmoothedPrices (callContext st ctx) ::
          (match (k.UpdateSmoothedPrices (callContext st ctx) w).2 with
           | some err =>
             [Call.recordErrorMetricsWithLabel MetricLabel.UpdateSmoothedPrices,
              Call.LoggerError (callContext st ctx) (LogLine.UpdateSmoothedPricesFailed err)]
           | none => [])) ++
          [Call.DecodeProcessProposalTxs (callContext st ctx) req, Call.Validate txs],
        [Call.recordSuccessMetrics (callContext st ctx) txs req.Txs.length,
          Call.ModuleMeasureSince], ?_, ?_, ?_, ?_, ?_⟩
      · rw [ProcessProposalHandler_calls, hd]
        simp [hv]
      · simp
      · simp
      · cases hu : (k.UpdateSmoothedPrices (callContext st ctx) w).2 <;>
          simp [Call.isRecordMevMetrics]
      · simp [Call.isRecordMevMetrics]
  · intro w2 err hd
    rw [ProcessProposalHandler_calls, hd]
    cases hu : (k.UpdateSmoothedPrices (callContext st ctx) w).2 <;>
      simp [Call.isRecordMevMetrics]
  · intro w2 txs err hd hv
    rw [ProcessProposalHandler_calls, hd]
    cases hu : (k.UpdateSmoothedPrices (callContext st ctx) w).2 <;>
      simp [hv, Call.isRecordMevMetrics]
  · intro w2 txs hd hv
    have hvf : ((k.withRecordMevMetrics f).Validate txs w2).2 = none := hv
    refine ⟨?_, ?_, ?_, ?_⟩
    · rw [ProcessProposalHandler_world, hd]
      simp [hv]
    · rw [ProcessProposalHandler_world, hdf, hd]
      simp only [hvf]
      rfl
    · rw [ProcessProposalHandler_status, hdf, hd]
      simp only [hvf]
    · rw [ProcessProposalHandler_recording, hd]
      simp [hv]
  · intro w2 err hd
    refine ⟨?_, ?_, ?_, ?_⟩
    · rw [ProcessProposalHandler_status, hd]
    · rw [ProcessProposalHandler_world, hd]
    · rw [ProcessProposalHandler_world, hdf, hd]
    · rw [ProcessProposalHandler_recording, hd]
      simp [Applied.isRecordMevMetrics]
  · intro w2 txs err hd hv
    have hvf : ((k.withRecordMevMetrics f).Validate txs w2).2 = some err := hv
    refine ⟨?_, ?_, ?_, ?_⟩
    · rw [ProcessProposalHandler_status, hd]
      simp [hv]
    · rw [ProcessProposalHandler_world, hd]
      simp [hv]
    · rw [ProcessProposalHandler_world, hdf, hd]
      simp only [hvf]
      rfl
    · rw [ProcessProposalHandler_recording, hd]
      simp [hv, Applied.isRecordMevMetrics]

/-- C6. The pipeline short-circuits: after a decode error the handler makes no `Validate`,
`RecordMevMetrics` or `recordSuccessMetrics` call and the keeper state is the one the decoder
left; after a `Validate` error it makes no `RecordMevMetrics` or `recordSuccessMetrics` call
and the keeper state is the one `Validate` left. -/
theorem ProcessProposalHandler_short_circuits (k : Keepers W Err Msg Other)
    (st : HandlerState) (ctx : Context) (req : RequestProcessProposal) (w : W) :
    (∀ w2 err,
      k.DecodeProcessProposalTxs (callContext st ctx) req
          (k.UpdateSmoothedPrices (callContext st ctx) w).1 = (w2, Except.error err) →
      (∀ c ∈ (ProcessProposalHandler k st ctx req w).calls,
        c.isValidate = false ∧ c.isRecordMevMetrics = false ∧
          c.isRecordSuccessMetrics = false) ∧
      (ProcessProposalHandler k st ctx req w).world = w2) ∧
    (∀ w2 txs err,
      k.DecodeProcessProposalTxs (callContext st ctx) req
          (k.UpdateSmoothedPrices (callContext st ctx) w).1 = (w2, Except.ok txs) →
      (k.Validate txs w2).2 = some err →
      (∀ c ∈ (ProcessProposalHandler k st ctx req w).calls,
        c.isRecordMevMetrics = false ∧ c.isRecordSuccessMetrics = false) ∧
      (ProcessProposalHandler k st ctx req w).world = (k.Validate txs w2).1) := by
  constructor
  · intro w2 err hd
    constructor
    · rw [ProcessProposalHandler_calls, hd]
      cases hu : (k.UpdateSmoothedPrices (callContext st ctx) w).2 <;>
        simp [Call.isValidate, Call.isRecordMevMetrics, Call.isRecordSuccessMetrics]
    · rw [ProcessProposalHandler_world, hd]
  · intro w2 txs err hd hv
    constructor
    · rw [ProcessProposalHandler_calls, hd]
      cases hu : (k.UpdateSmoothedPrices (callContext st ctx) w).2 <;>
        simp [hv, Call.isValidate, Call.isRecordMevMetrics, Call.isRecordSuccessMetrics]
    · rw [ProcessProposalHandler_world, hd]
      simp [hv]

/-- Witness of C4: on a repeated round at height 5 the sample update fails; a proposal with
one transaction is still decoded, validated and accepted, an empty one is still rejected by
the decoder and one with three transactions by validation. -/
theorem UpdateSmoothedPrices_error_keeps_verdict_witness :
    (sampleKeepers.UpdateSmoothedPrices (callContext ⟨5, 0⟩ ⟨5, []⟩) 0).2 = some 7 ∧
    (ProcessProposalHandler sampleKeepers ⟨5, 0⟩ ⟨5, []⟩ ⟨[[1]]⟩ 0).response =
      { Status := ProposalStatus.ACCEPT } ∧
    (ProcessProposalHandler sampleKeepers ⟨5, 0⟩ ⟨5, []⟩ ⟨[]⟩ 0).response.Status =
      ProposalStatus.REJECT ∧
    (ProcessProposalHandler sampleKeepers ⟨5, 0⟩ ⟨5, []⟩ ⟨[[1], [2], [3]]⟩ 0).response.Status =
      ProposalStatus.REJECT :=
  ⟨by decide,
   ((UpdateSmoothedPrices_error_keeps_verdict sampleKeepers ⟨5, 0⟩ ⟨5, []⟩ ⟨[[1]]⟩ 0 7
      (by decide)).1).trans (by decide),
   ((UpdateSmoothedPrices_error_keeps_verdict sampleKeepers ⟨5, 0⟩ ⟨5, []⟩ ⟨[]⟩ 0 7
      (by decide)).2.2.2.2.2.2.2.1 1 8 rfl).1,
   ((UpdateSmoothedPrices_error_keeps_verdict sampleKeepers ⟨5, 0⟩ ⟨5, []⟩ ⟨[[1], [2], [3]]⟩ 0
      7 (by decide)).2.2.2.2.2.2.2.2.1 1 { ProposedOperationsTx := { msg := 3 }, rest := () } 9
      rfl rfl).1⟩

/-- Witness of C3 on the sample keepers: one transaction is accepted, no transaction is
rejected by the decoder, three transactions are rejected by validation. -/
theorem ProcessProposalHandler_verdict_witness :
    (ProcessProposalHandler sampleKeepers ⟨5, 0⟩ ⟨6, []⟩ ⟨[[1]]⟩ 0).response.Status =
      ProposalStatus.ACCEPT ∧
    (ProcessProposalHandler sampleKeepers ⟨5, 0⟩ ⟨6, []⟩ ⟨[]⟩ 0).response.Status =
      ProposalStatus.REJECT ∧
    (ProcessProposalHandler sampleKeepers ⟨5, 0⟩ ⟨6, []⟩ ⟨[[1], [2], [3]]⟩ 0).response.Status =
      ProposalStatus.REJECT :=
  ⟨(ProcessProposalHandler_verdict sampleKeepers ⟨5, 0⟩ ⟨6, []⟩ ⟨[[1]]⟩ 0).2.1.mpr
      ⟨1, { ProposedOperationsTx := { msg := 1 }, rest := () }, rfl, rfl⟩,
   (ProcessProposalHandler_verdict sampleKeepers ⟨5, 0⟩ ⟨6, []⟩ ⟨[]⟩ 0).2.2.1 1 8 rfl,
   (ProcessProposalHandler_verdict sampleKeepers ⟨5, 0⟩ ⟨6, []⟩ ⟨[[1], [2], [3]]⟩ 0).2.2.2 1
      { ProposedOperationsTx := { msg := 3 }, rest := () } 9 rfl rfl⟩

/-- Witness of C5 on the sample keepers: with `RecordMevMetrics` replaced by one that wipes
the keeper state, the accepted proposal is still accepted and the wipe is what was applied;
the proposal with three transactions is rejected by validation and no MEV record touches
the keeper state (1, the one price update), with or without the replacement. -/
theorem RecordMevMetrics_never_affects_verdict_witness :
    (ProcessProposalHandler (sampleKeepers.withRecordMevMetrics (fun _ _ _ => 0)) ⟨5, 0⟩
        ⟨6, []⟩ ⟨[[1]]⟩ 0).response = { Status := ProposalStatus.ACCEPT } ∧
    (ProcessProposalHandler (sampleKeepers.withRecordMevMetrics (fun _ _ _ => 0)) ⟨5, 0⟩
        ⟨6, []⟩ ⟨[[1]]⟩ 0).world = 0 ∧
    (ProcessProposalHandler sampleKeepers ⟨5, 0⟩ ⟨6, []⟩ ⟨[[1]]⟩ 0).world = 101 ∧
    (ProcessProposalHandler sampleKeepers ⟨5, 0⟩ ⟨6, []⟩ ⟨[[1], [2], [3]]⟩ 0).world = 1 ∧
    (ProcessProposalHandler (sampleKeepers.withRecordMevMetrics (fun _ _ _ => 0)) ⟨5, 0⟩
        ⟨6, []⟩ ⟨[[1], [2], [3]]⟩ 0).world = 1 :=
  ⟨((RecordMevMetrics_never_affects_verdict sampleKeepers ⟨5, 0⟩ ⟨6, []⟩ ⟨[[1]]⟩ 0
      (fun _ _ _ => 0)).1).trans (by decide),
   ((RecordMevMetrics_never_affects_verdict sampleKeepers ⟨5, 0⟩ ⟨6, []⟩ ⟨[[1]]⟩ 0
      (fun _ _ _ => 0)).2.2.2.2.1 1 { ProposedOperationsTx := { msg := 1 }, rest := () }
      rfl rfl).2.1,
   ((RecordMevMetrics_never_affects_verdict sampleKeepers ⟨5, 0⟩ ⟨6, []⟩ ⟨[[1]]⟩ 0
      (fun _ _ _ => 0)).2.2.2.2.1 1 { ProposedOperationsTx := { msg := 1 }, rest := () }
      rfl rfl).1,
   ((RecordMevMetrics_never_affects_verdict sampleKeepers ⟨5, 0⟩ ⟨6, []⟩ ⟨[[1], [2], [3]]⟩ 0
      (fun _ _ _ => 0)).2.2.2.2.2.2 1 { ProposedOperationsTx := { msg := 3 }, rest := () } 9
      rfl rfl).2.1,
   ((RecordMevMetrics_never_affects_verdict sampleKeepers ⟨5, 0⟩ ⟨6, []⟩ ⟨[[1], [2], [3]]⟩ 0
      (fun _ _ _ => 0)).2.2.2.2.2.2 1 { ProposedOperationsTx := { msg := 3 }, rest := () } 9
      rfl rfl).2.2.1⟩

/-- Witness of C6 on the sample keepers: after the decode error on an empty proposal the
keeper state is the one the decoder left (one price update, no MEV record); after the
validation error on three transactions likewise. -/
theorem ProcessProposalHandler_short_circuits_witness :
    (ProcessProposalHandler sampleKeepers ⟨5, 0⟩ ⟨6, []⟩ ⟨[]⟩ 0).world = 1 ∧
    (ProcessProposalHandler sampleKeepers ⟨5, 0⟩ ⟨6, []⟩ ⟨[[1], [2], [3]]⟩ 0).world = 1 :=
  ⟨((ProcessProposalHandler_short_circuits sampleKeepers ⟨5, 0⟩ ⟨6, []⟩ ⟨[]⟩ 0).1 1 8 rfl).2,
   ((ProcessProposalHandler_short_circuits sampleKeepers ⟨5, 0⟩ ⟨6, []⟩
      ⟨[[1], [2], [3]]⟩ 0).2 1 { ProposedOperationsTx := { msg := 3 }, rest := () } 9
      rfl rfl).2⟩

end process

namespace clob

variable {L U Err : Type}

end clob

namespace v1

variable {Side TimeInForce ISide ITimeInForce : Type}

/-- C8. `OrderToIndexerOrder` panics on every order whose `GoodTilOneof` is nil, and returns
an `IndexerOrder` (carrying the same expiration kind and value) for every order with a
`GoodTilBlock` or a `GoodTilBlockTime`. -/
theorem OrderToIndexerOrder_panics_iff_no_expiration (sideMap : Side → ISide)
    (tifMap : TimeInForce → ITimeInForce) (order : Order Side TimeInForce) :
    (order.GoodTilOneof = none →
      OrderToIndexerOrder sideMap tifMap order = Outcome.panics) ∧
    (∀ b, order.GoodTilOneof = some (Order_GoodTilOneof.GoodTilBlock b) →
      ∃ io, OrderToIndexerOrder sideMap tifMap order = Outcome.returns io ∧
        io.GoodTilOneof = some (IndexerOrder_GoodTilOneof.GoodTilBlock b)) ∧
    (∀ t, order.GoodTilOneof = some (Order_GoodTilOneof.GoodTilBlockTime t) →
      ∃ io, OrderToIndexerOrder sideMap tifMap order = Outcome.returns io ∧
        io.GoodTilOneof = some (IndexerOrder_GoodTilOneof.GoodTilBlockTime t)) := by
  refine ⟨?_, ?_, ?_⟩
  · intro h
    simp [OrderToIndexerOrder, h]
  · intro b h
    simp [OrderToIndexerOrder, h]
  · intro t h
    simp [OrderToIndexerOrder, h]

/-- Witness of C8 on the orders of `TestOrderToIndexerOrder_Panic` and
`TestOrderToIndexerOrderV1`: the short-term order with its expiration removed panics, the
short-term and the stateful order are mapped. -/
theorem OrderToIndexerOrder_panics_iff_no_expiration_witness :
    OrderToIndexerOrder id id
        { Order_Alice_Num1_Id2_Clob1_Buy67_Price5_GTB20 with GoodTilOneof := none } =
      (Outcome.panics : Outcome (IndexerOrder Nat Nat)) ∧
    (∃ io, OrderToIndexerOrder id id Order_Alice_Num1_Id2_Clob1_Buy67_Price5_GTB20 =
        (Outcome.returns io : Outcome (IndexerOrder Nat Nat)) ∧
      io.GoodTilOneof = some (IndexerOrder_GoodTilOneof.GoodTilBlock 20)) ∧
    (∃ io, OrderToIndexerOrder id id LongTermOrder_Bob_Num0_Id1_Clob0_Sell50_Price10_GTBT15 =
        (Outcome.returns io : Outcome (IndexerOrder Nat Nat)) ∧
      io.GoodTilOneof = some (IndexerOrder_GoodTilOneof.GoodTilBlockTime 15)) :=
  ⟨(OrderToIndexerOrder_panics_iff_no_expiration id id
      { Order_Alice_Num1_Id2_Clob1_Buy67_Price5_GTB20 with GoodTilOneof := none }).1 rfl,
   (OrderToIndexerOrder_panics_iff_no_expiration id id
      Order_Alice_Num1_Id2_Clob1_Buy67_Price5_GTB20).2.1 20 rfl,
   (OrderToIndexerOrder_panics_iff_no_expiration id id
      LongTermOrder_Bob_Num0_Id1_Clob0_Sell50_Price10_GTBT15).2.2 15 rfl⟩

end v1

namespace epochs

/-- The per-epoch step keeps the name of the epoch. -/
theorem MaybeStartNextEpoch_Name (ff : Context → EpochInfo → Int) (ctx : Context)
    (e : EpochInfo) : (MaybeStartNextEpoch ff ctx e).1.Name = e.Name := by
  unfold MaybeStartNextEpoch
  split
  · rfl
  · split <;> rfl

/-- Every event of the per-epoch step carries the name of the epoch. -/
theorem MaybeStartNextEpoch_event_name (ff : Context → EpochInfo → Int) (ctx : Context)
    (e : EpochInfo) : ∀ ev ∈ (MaybeStartNextEpoch ff ctx e).2, ev.EpochInfoName = e.Name := by
  unfold MaybeStartNextEpoch
  split
  · simp
  · split <;> simp

/-- An epoch name that is not stored has no stored info and no event after the call. -/
theorem BeginBlocker_absent (ff : Context → EpochInfo → Int) (ctx : Context) (name : String) :
    ∀ store : List EpochInfo, name ∉ store.map (fun e => e.Name) →
      GetEpochInfo (BeginBlocker ff ctx store).1 name = none ∧
      eventsOf (BeginBlocker ff ctx store).2 name = []
  | [], _ => by simp [BeginBlocker, GetEpochInfo, eventsOf]
  | x :: rest, h => by
    simp only [List.map_cons, List.mem_cons, not_or] at h
    obtain ⟨ih1, ih2⟩ := BeginBlocker_absent ff ctx name rest h.2
    have hx : x.Name ≠ name := fun hh => h.1 hh.symm
    constructor
    · simp only [GetEpochInfo] at ih1 ⊢
      simp only [BeginBlocker]
      rw [List.find?_cons_of_neg]
      · exact ih1
      · simp [MaybeStartNextEpoch_Name, hx]
    · simp only [eventsOf] at ih2 ⊢
      simp only [BeginBlocker, List.filter_append, ih2, List.append_nil]
      rw [List.filter_eq_nil_iff]
      intro ev hev
      rw [MaybeStartNextEpoch_event_name ff ctx x ev hev]
      simp [hx]

/-- The stored info and the events of one epoch after the call are those of its own step. -/
theorem BeginBlocker_of_mem (ff : Context → EpochInfo → Int) (ctx : Context) (e : EpochInfo) :
    ∀ store : List EpochInfo, e ∈ store → (store.map (fun x => x.Name)).Nodup →
      GetEpochInfo (BeginBlocker ff ctx store).1 e.Name =
        some (MaybeStartNextEpoch ff ctx e).1 ∧
      eventsOf (BeginBlocker ff ctx store).2 e.Name = (MaybeStartNextEpoch ff ctx e).2
  | [], h, _ => by simp at h
  | x :: rest, h, hnd => by
    simp only [List.map_cons, List.nodup_cons] at hnd
    by_cases hx : e = x
    · subst hx
      obtain ⟨-, hev⟩ := BeginBlocker_absent ff ctx e.Name rest hnd.1
      constructor
      · simp only [GetEpochInfo, BeginBlocker]
        rw [List.find?_cons_of_pos]
        simp [MaybeStartNextEpoch_Name]
      · simp only [eventsOf] at hev ⊢
        simp only [BeginBlocker, List.filter_append, hev, List.append_nil]
        rw [List.filter_eq_self]
        intro ev hmem
        rw [MaybeStartNextEpoch_event_name ff ctx e ev hmem]
        simp
    · have hrest : e ∈ rest := by
        rcases List.mem_cons.mp h with h1 | h1
        · exact absurd h1 hx
        · exact h1
      have hne : x.Name ≠ e.Name := by
        intro hh
        apply hnd.1
        rw [hh]
        exact List.mem_map.mpr ⟨e, hrest, rfl⟩
      obtain ⟨ih1, ih2⟩ := BeginBlocker_of_mem ff ctx e rest hrest hnd.2
      constructor
      · simp only [GetEpochInfo] at ih1 ⊢
        simp only [BeginBlocker]
        rw [List.find?_cons_of_neg]
        · exact ih1
        · simp [MaybeStartNextEpoch_Name, hne]
      · simp only [eventsOf] at ih2 ⊢
        simp only [BeginBlocker, List.filter_append, ih2]
        have : List.filter (fun ev => ev.EpochInfoName == e.Name)
            (MaybeStartNextEpoch ff ctx x).2 = [] := by
          rw [List.filter_eq_nil_iff]
          intro ev hev
          rw [MaybeStartNextEpoch_event_name ff ctx x ev hev]
          simp [hne]
        rw [this, List.nil_append]

/-- The test case "two different epochs, both reached nextTick" of `TestBeginBlocker`: both
epochs advance by one duration, the second one by one only although it is 75 seconds late,
and one event per epoch is emitted. -/
theorem BeginBlocker_test_two_epochs :
    BeginBlocker (fun _ e => e.NextTick) ⟨1800000075, 65⟩
        [testEpoch "name" 1800000060 0 0, testEpoch "name2" 1800000000 0 0] =
      ([testEpoch "name" 1800000120 1 65, testEpoch "name2" 1800000060 1 65],
       [{ EpochInfoName := "name", EpochNumber := 1, EpochStartTickTime := 1800000060
          EpochStartBlockTime := 1800000075, EpochStartBlock := 65 },
        { EpochInfoName := "name2", EpochNumber := 1, EpochStartTickTime := 1800000000
          EpochStartBlockTime := 1800000075, EpochStartBlock := 65 }]) := by
  decide

/-- The test cases "initialized, nextTick reached" and "initialized, nextTick not reached,
same epoch" of `TestBeginBlocker`. -/
theorem BeginBlocker_test_single_epoch :
    BeginBlocker (fun _ e => e.NextTick) ⟨1800000075, 65⟩ [testEpoch "name" 1800000060 0 0] =
      ([testEpoch "name" 1800000120 1 65],
       [{ EpochInfoName := "name", EpochNumber := 1, EpochStartTickTime := 1800000060
          EpochStartBlockTime := 1800000075, EpochStartBlock := 65 }]) ∧
    BeginBlocker (fun _ e => e.NextTick) ⟨1800000055, 50⟩ [testEpoch "name" 1800000060 0 0] =
      ([testEpoch "name" 1800000060 0 0], []) := by
  decide

/-- C9. For a stored, initialized epoch info whose `NextTick` is at or before the block time,
one `BeginBlocker` call stores `NextTick + Duration` as its next tick (one `Duration` only,
whatever the distance to the block time), `CurrentEpoch + 1` as its epoch and the block
height as its start block, and emits exactly one new-epoch event for it, carrying the new
epoch number, the old `NextTick`, the block time and the block height. -/
theorem BeginBlocker_starts_one_epoch (ff : Context → EpochInfo → Int) (ctx : Context)
    (store : List EpochInfo) (e : EpochInfo) (hmem : e ∈ store)
    (hnames : (store.map (fun x => x.Name)).Nodup)
    (hinit : e.IsInitialized = true) (htick : e.NextTick ≤ ctx.blockTime) :
    GetEpochInfo (BeginBlocker ff ctx store).1 e.Name =
      some { e with
        NextTick := e.NextTick + e.Duration
        CurrentEpoch := e.CurrentEpoch + 1
        CurrentEpochStartBlock := ctx.blockHeight } ∧
    eventsOf (BeginBlocker ff ctx store).2 e.Name =
      [{ EpochInfoName := e.Name
         EpochNumber := e.CurrentEpoch + 1
         EpochStartTickTime := e.NextTick
         EpochStartBlockTime := ctx.blockTime
         EpochStartBlock := ctx.blockHeight }] := by
  obtain ⟨h1, h2⟩ := BeginBlocker_of_mem ff ctx e store hmem hnames
  have hstep : MaybeStartNextEpoch ff ctx e =
      ({ e with
          NextTick := e.NextTick + e.Duration
          CurrentEpoch := e.CurrentEpoch + 1
          CurrentEpochStartBlock := ctx.blockHeight },
       [{ EpochInfoName := e.Name
          EpochNumber := e.CurrentEpoch + 1
          EpochStartTickTime := e.NextTick
          EpochStartBlockTime := ctx.blockTime
          EpochStartBlock := ctx.blockHeight }]) := by
    unfold MaybeStartNextEpoch
    rw [if_neg (by simp [hinit]), if_neg (not_lt.mpr htick)]
  rw [h1, h2, hstep]
  exact ⟨rfl, rfl⟩

/-- Witness of C9 on the test case "downtime recovery": the block is 541 seconds past the
tick and the epoch still advances by one duration of 60 only. -/
theorem BeginBlocker_starts_one_epoch_witness :
    (testEpoch "name" 1800000060 0 0).IsInitialized = true ∧
    (testEpoch "name" 1800000060 0 0).NextTick ≤ (1800000601 : Int) ∧
    GetEpochInfo
        (BeginBlocker (fun _ e => e.NextTick) ⟨1800000601, 65⟩
          [testEpoch "name" 1800000060 0 0]).1 "name" =
      some (testEpoch "name" 1800000120 1 65) ∧
    eventsOf
        (BeginBlocker (fun _ e => e.NextTick) ⟨1800000601, 65⟩
          [testEpoch "name" 1800000060 0 0]).2 "name" =
      [{ EpochInfoName := "name", EpochNumber := 1, EpochStartTickTime := 1800000060
         EpochStartBlockTime := 1800000601, EpochStartBlock := 65 }] :=
  ⟨rfl, by decide,
   BeginBlocker_starts_one_epoch (fun _ e => e.NextTick) ⟨1800000601, 65⟩
     [testEpoch "name" 1800000060 0 0] (testEpoch "name" 1800000060 0 0)
     (by simp) (by simp) rfl (by decide)⟩

/-- C10. For a stored, initialized epoch info whose `NextTick` is after the block time, one
`BeginBlocker` call leaves the stored info as it was, every field included, and emits no
new-epoch event for it. -/
theorem BeginBlocker_before_tick_unchanged (ff : Context → EpochInfo → Int) (ctx : Context)
    (store : List EpochInfo) (e : EpochInfo) (hmem : e ∈ store)
    (hnames : (store.map (fun x => x.Name)).Nodup)
    (hinit : e.IsInitialized = true) (htick : ctx.blockTime < e.NextTick) :
    GetEpochInfo (BeginBlocker ff ctx store).1 e.Name = some e ∧
    eventsOf (BeginBlocker ff ctx store).2 e.Name = [] := by
  obtain ⟨h1, h2⟩ := BeginBlocker_of_mem ff ctx e store hmem hnames
  have hstep : MaybeStartNextEpoch ff ctx e = (e, []) := by
    unfold MaybeStartNextEpoch
    rw [if_neg (by simp [hinit]), if_pos htick]
  rw [h1, h2, hstep]
  exact ⟨rfl, rfl⟩

/-- Witness of C10 on the test case "initialized, nextTick not reached, same epoch". -/
theorem BeginBlocker_before_tick_unchanged_witness :
    (testEpoch "name" 1800000060 0 0).IsInitialized = true ∧
    (1800000055 : Int) < (testEpoch "name" 1800000060 0 0).NextTick ∧
    GetEpochInfo
        (BeginBlocker (fun _ e => e.NextTick) ⟨1800000055, 50⟩
          [testEpoch "name" 1800000060 0 0]).1 "name" =
      some (testEpoch "name" 1800000060 0 0) ∧
    eventsOf
        (BeginBlocker (fun _ e => e.NextTick) ⟨1800000055, 50⟩
          [testEpoch "name" 1800000060 0 0]).2 "name" = [] :=
  ⟨rfl, by decide,
   BeginBlocker_before_tick_unchanged (fun _ e => e.NextTick) ⟨1800000055, 50⟩
     [testEpoch "name" 1800000060 0 0] (testEpoch "name" 1800000060 0 0)
     (by simp) (by simp) rfl (by decide)⟩

end epochs

namespace v1

/-- The loop appends the mapped positions, in order, to what it was given. -/
theorem appendIndexerPerpetualPositions_eq (fundingPayments : Nat → Option Int) :
    ∀ (positions : List PerpetualPosition) (acc : List IndexerPerpetualPosition),
      appendIndexerPerpetualPositions fundingPayments acc positions =
        acc ++ positions.map (fun position =>
          PerpetualPositionToIndexerPerpetualPosition position
            ((fundingPayments position.PerpetualId).getD 0))
  | [], acc => by simp [appendIndexerPerpetualPositions]
  | position :: rest, acc => by
    rw [appendIndexerPerpetualPositions, appendIndexerPerpetualPositions_eq fundingPayments rest]
    cases h : fundingPayments position.PerpetualId <;> simp [h]

/-- C11. `PerpetualPositionsToIndexerPerpetualPositions` maps a nil slice to nil and an empty
slice to an empty slice; for every list of positions and every funding-payment map the
result has the length of the input, and its `i`-th element has the `PerpetualId`, `Quantums`
and `FundingIndex` of the `i`-th position and as `FundingPayment` the map entry of that
`PerpetualId`, zero when the map has none. -/
theorem PerpetualPositionsToIndexerPerpetualPositions_elementwise
    (fundingPayments : Nat → Option Int) :
    PerpetualPositionsToIndexerPerpetualPositions none fundingPayments = none ∧
    PerpetualPositionsToIndexerPerpetualPositions (some []) fundingPayments = some [] ∧
    ∀ positions : List PerpetualPosition,
      ∃ result,
        PerpetualPositionsToIndexerPerpetualPositions (some positions) fundingPayments =
          some result ∧
        result.length = positions.length ∧
        ∀ (i : Nat) (position : PerpetualPosition), positions[i]? = some position →
          result[i]? = some
            ({ PerpetualId := position.PerpetualId
               Quantums := position.Quantums
               FundingIndex := position.FundingIndex
               FundingPayment :=
                 (match fundingPayments position.PerpetualId with
                  | some fundingPayment => fundingPayment
                  | none => 0) } : IndexerPerpetualPosition) := by
  refine ⟨rfl, rfl, fun positions => ⟨_, rfl, ?_, ?_⟩⟩
  · rw [appendIndexerPerpetualPositions_eq]
    simp
  · intro i position hi
    rw [appendIndexerPerpetualPositions_eq]
    simp only [List.nil_append, List.getElem?_map, hi, Option.map_some]
    cases h : fundingPayments position.PerpetualId <;>
      simp [PerpetualPositionToIndexerPerpetualPosition, h]

/-- Witness of C11 on the test case "with non-zero funding payments": the two positions are
mapped in order with payments 100 and -100; with an empty map both payments are zero. -/
theorem PerpetualPositionsToIndexerPerpetualPositions_elementwise_witness :
    PerpetualPositionsToIndexerPerpetualPositions
        (some [Short_Perp_1ETH_NegativeFunding, Long_Perp_1BTC_PositiveFunding])
        testFundingPayments =
      some [{ PerpetualId := 1, Quantums := -1000000000, FundingIndex := -1
              FundingPayment := 100 },
            { PerpetualId := 0, Quantums := 100000000, FundingIndex := 2
              FundingPayment := -100 }] ∧
    PerpetualPositionsToIndexerPerpetualPositions
        (some [Short_Perp_1ETH_NegativeFunding, Long_Perp_1BTC_PositiveFunding])
        (fun _ => none) =
      some [{ PerpetualId := 1, Quantums := -1000000000, FundingIndex := -1
              FundingPayment := 0 },
            { PerpetualId := 0, Quantums := 100000000, FundingIndex := 2
              FundingPayment := 0 }] ∧
    PerpetualPositionsToIndexerPerpetualPositions none testFundingPayments = none :=
  ⟨by decide, by decide,
   (PerpetualPositionsToIndexerPerpetualPositions_elementwise testFundingPayments).1⟩

end v1

namespace server

variable {M BridgeEvent Err : Type}

/-- C14. `Server.AddBridgeEvents` calls the manager exactly once, with exactly the request's
`BridgeEvents`; when the manager returns an error it returns a nil response and that same
error, otherwise a non-nil empty response and a nil error. -/
theorem AddBridgeEvents_propagates (mgr : BridgeEventManager M BridgeEvent Err) (m : M)
    (req : AddBridgeEventsRequest BridgeEvent) :
    (AddBridgeEvents mgr m req).managerCalls = [req.BridgeEvents] ∧
    (AddBridgeEvents mgr m req).manager = (mgr.AddBridgeEvents m req.BridgeEvents).1 ∧
    (∀ err, (mgr.AddBridgeEvents m req.BridgeEvents).2 = some err →
      (AddBridgeEvents mgr m req).response = none ∧
      (AddBridgeEvents mgr m req).err = some err) ∧
    ((mgr.AddBridgeEvents m req.BridgeEvents).2 = none →
      (AddBridgeEvents mgr m req).response = some {} ∧
      (AddBridgeEvents mgr m req).err = none) := by
  unfold AddBridgeEvents
  rcases h : mgr.AddBridgeEvents m req.BridgeEvents with ⟨m1, e⟩
  cases e <;> simp

/-- Witness of C14 on the sample manager: an empty event list is refused and the error comes
back with a nil response; a list of two events is stored and answered with an empty
response. -/
theorem AddBridgeEvents_propagates_witness :
    ((AddBridgeEvents sampleManager [] { BridgeEvents := [] }).response = none ∧
      (AddBridgeEvents sampleManager [] { BridgeEvents := [] }).err = some 1) ∧
    ((AddBridgeEvents sampleManager [] { BridgeEvents := [4, 5] }).response = some {} ∧
      (AddBridgeEvents sampleManager [] { BridgeEvents := [4, 5] }).err = none) :=
  ⟨(AddBridgeEvents_propagates sampleManager [] { BridgeEvents := [] }).2.2.1 1 rfl,
   (AddBridgeEvents_propagates sampleManager [] { BridgeEvents := [4, 5] }).2.2.2 rfl⟩

end server

namespace process

variable {W Err Msg Other : Type}

end process
